import Mathlib

/-!
Shallow embedding of `Fornaxian/config` (`config.go`): a Manager that
searches an ordered list of candidate paths for a TOML configuration
file, decoding the first one that reads and parses, on top of defaults
decoded at construction time.

The TOML library (`github.com/BurntSushi/toml`) is external to the
repository; its decoder is modelled from the spec as a parser parameter
plus an overlay of the parsed field assignments onto the configuration
object. The filesystem and the `$HOME` environment variable are inputs.
The search loop additionally returns a trace of its observable events
(read attempts that failed, decode warnings, the file finally used) so
that properties about which paths are read can be stated.
-/

namespace Config

/-- Abstract TOML field values. -/
abbrev Value := String

/-- The caller-supplied configuration object, viewed as an assignment of
configuration fields to optional values (a field may be unset). -/
abbrev ConfState := String → Option Value

/-- The behaviour of the external TOML front end: given the raw text of a
document, return `none` when it is malformed, otherwise the list of field
assignments it contains. -/
abbrev Parse := String → Option (List (String × Value))

/-- The filesystem: maps a path to `none` when reading fails (missing
file, permission error, ...) or to the raw file contents. -/
abbrev FS := String → Option String

/-- Modelled from the spec: decoding a parsed document on top of an
already populated configuration object overlays exactly the fields
present in the document; every field absent from the document keeps its
current value. -/
def overlay (flds : List (String × Value)) (c : ConfState) : ConfState :=
  fun k =>
    match flds.lookup k with
    | some v => some v
    | none => c k

/-- Modelled from the spec: `toml.Decode` parses the document text and, on
success, overlays its fields onto the configuration object; on a malformed
document it fails without producing a new object. (The TOML library is not
part of this repository; this follows the spec's overlay description.) -/
def decode (parse : Parse) (doc : String) (c : ConfState) : Option ConfState :=
  match parse doc with
  | none => none
  | some flds => some (overlay flds c)

/-- `Manager` is in charge of finding and reading configuration files
(config.go lines 13-18). `Conf` is the caller's configuration object. -/
structure Manager where
  confPaths : List String
  fileName : String
  defaultConfig : String
  Conf : ConfState

/-- `ErrNoConfigFound`: the zero-data marker error returned when no config
file could be found (config.go lines 21-25). -/
inductive LoadError where
  | ErrNoConfigFound
deriving DecidableEq, Repr

/-- One observable event of the candidate search: a failed read attempt
(logged at debug level), a read that succeeded but failed to decode
(logged as a warning), or the file that was read and decoded and whose
contents were used. Every event records a read attempt on its path. -/
inductive Ev where
  | readFail (p : String)
  | decodeFail (p : String)
  | used (p : String)
deriving DecidableEq, Repr

/-- The path an event refers to. -/
def Ev.path : Ev → String
  | .readFail p => p
  | .decodeFail p => p
  | .used p => p

/-- The body of the `for` loop of `LoadConfig` (config.go lines 117-138),
as a recursion over the remaining candidate paths, threading the
configuration object and collecting the event trace. An empty candidate
is skipped before any read; a failed read or a failed decode moves on to
the next candidate; a successful decode stops the search. -/
def loadConfigAux (parse : Parse) (fs : FS) :
    List String → ConfState → Option LoadError × ConfState × List Ev
  | [], c => (some .ErrNoConfigFound, c, [])
  | cd :: rest, c =>
    if cd = "" then loadConfigAux parse fs rest c
    else
      match fs cd with
      | none =>
        let r := loadConfigAux parse fs rest c
        (r.1, r.2.1, .readFail cd :: r.2.2)
      | some s =>
        match decode parse s c with
        | none =>
          let r := loadConfigAux parse fs rest c
          (r.1, r.2.1, .decodeFail cd :: r.2.2)
        | some c' => (none, c', [.used cd])

/-- `LoadConfig` (config.go lines 113-141): try every configured candidate
path until one can be read and decoded; on total failure return
`ErrNoConfigFound`. The method only mutates the configuration object
field of the manager. -/
def LoadConfig (parse : Parse) (fs : FS) (m : Manager) :
    Option LoadError × Manager × List Ev :=
  let r := loadConfigAux parse fs m.confPaths m.Conf
  (r.1, { m with Conf := r.2.1 }, r.2.2)

/-- The candidate path list built by `New` (config.go lines 61-67);
`home` is the value of the `HOME` environment variable. -/
def confPathsOf (confDir fileName home : String) : List String :=
  [confDir ++ "/" ++ fileName,
   fileName,
   home ++ "/.config/" ++ fileName,
   "/usr/local/etc/" ++ fileName,
   "/etc/" ++ fileName]

/-- The observable outcome of `New`: a constructed manager, a failure to
decode the default configuration (no manager returned), or process
termination with an exit code together with the file write that succeeded
(path, contents, permission bits), if any. -/
inductive NewResult where
  | ok (m : Manager)
  | defaultDecodeError
  | exited (code : Nat) (wrote : Option (String × String × Nat))

/-- `New` (config.go lines 54-106): build the candidate path list, decode
the default configuration into the configuration object (aborting on
failure), and, when `autoload` is set, run `LoadConfig`; if no config file
was found, write the default text to `fileName` with permissions `0644`
and exit with status `0`, or exit with status `1` when the write fails
(`writeOk` models whether the write succeeds). The second component is
the trace of read events performed during construction. -/
def New (parse : Parse) (defaultConf confDir fileName home : String)
    (config : ConfState) (autoload : Bool) (fs : FS) (writeOk : Bool) :
    NewResult × List Ev :=
  match decode parse defaultConf config with
  | none => (.defaultDecodeError, [])
  | some c0 =>
    let m : Manager := ⟨confPathsOf confDir fileName home, fileName, defaultConf, c0⟩
    if autoload then
      let r := LoadConfig parse fs m
      match r.1 with
      | some .ErrNoConfigFound =>
        if writeOk then (.exited 0 (some (fileName, defaultConf, 0o644)), r.2.2)
        else (.exited 1 none, r.2.2)
      | none => (.ok r.2.1, r.2.2)
    else (.ok m, [])

/-- The event that trying candidate `p` produces when it does not end the
search, `none` when `p` is skipped without a read. -/
def attemptEv (parse : Parse) (fs : FS) (p : String) : Option Ev :=
  if p = "" then none
  else
    match fs p with
    | none => some (.readFail p)
    | some s =>
      match parse s with
      | none => some (.decodeFail p)
      | some _ => some (.used p)

/-- Candidate `p` does not yield a successful read-and-decode: it is
empty, or reading fails, or the contents are malformed. -/
def failsAt (parse : Parse) (fs : FS) (p : String) : Prop :=
  p = "" ∨ fs p = none ∨ ∃ s, fs p = some s ∧ parse s = none

lemma loadConfigAux_skip (parse : Parse) (fs : FS) {cd : String} (h : cd = "")
    (rest : List String) (c : ConfState) :
    loadConfigAux parse fs (cd :: rest) c = loadConfigAux parse fs rest c := by
  simp [loadConfigAux, h]

lemma loadConfigAux_readFail (parse : Parse) (fs : FS) {cd : String}
    (h0 : ¬ cd = "") (h : fs cd = none) (rest : List String) (c : ConfState) :
    loadConfigAux parse fs (cd :: rest) c =
      ((loadConfigAux parse fs rest c).1, (loadConfigAux parse fs rest c).2.1,
        Ev.readFail cd :: (loadConfigAux parse fs rest c).2.2) := by
  simp [loadConfigAux, h0, h]

lemma loadConfigAux_decodeFail (parse : Parse) (fs : FS) {cd s : String}
    (h0 : ¬ cd = "") (h : fs cd = some s) (hp : parse s = none)
    (rest : List String) (c : ConfState) :
    loadConfigAux parse fs (cd :: rest) c =
      ((loadConfigAux parse fs rest c).1, (loadConfigAux parse fs rest c).2.1,
        Ev.decodeFail cd :: (loadConfigAux parse fs rest c).2.2) := by
  simp [loadConfigAux, h0, h, decode, hp]

lemma loadConfigAux_used (parse : Parse) (fs : FS) {cd s : String}
    {flds : List (String × Value)} (h0 : ¬ cd = "") (h : fs cd = some s)
    (hp : parse s = some flds) (rest : List String) (c : ConfState) :
    loadConfigAux parse fs (cd :: rest) c = (none, overlay flds c, [Ev.used cd]) := by
  simp [loadConfigAux, h0, h, decode, hp]

lemma loadConfigAux_append_fail (parse : Parse) (fs : FS) {pre : List String}
    (hpre : ∀ p ∈ pre, failsAt parse fs p) (ps : List String) (c : ConfState) :
    loadConfigAux parse fs (pre ++ ps) c =
      ((loadConfigAux parse fs ps c).1, (loadConfigAux parse fs ps c).2.1,
        pre.filterMap (attemptEv parse fs) ++ (loadConfigAux parse fs ps c).2.2) := by
  induction pre with
  | nil => simp
  | cons p pre ih =>
    have hrest : ∀ q ∈ pre, failsAt parse fs q :=
      fun q hq => hpre q (List.mem_cons_of_mem _ hq)
    have hp := hpre p (List.mem_cons_self _ _)
    by_cases h0 : p = ""
    · rw [List.cons_append, loadConfigAux_skip parse fs h0, ih hrest]
      simp [attemptEv, h0]
    · rcases hp with h | h | ⟨s, hs, hps⟩
      · exact absurd h h0
      · rw [List.cons_append, loadConfigAux_readFail parse fs h0 h, ih hrest]
        simp [attemptEv, h0, h]
      · rw [List.cons_append, loadConfigAux_decodeFail parse fs h0 hs hps, ih hrest]
        simp [attemptEv, h0, hs, hps]

lemma loadConfigAux_exhaust (parse : Parse) (fs : FS) {ps : List String}
    (h : ∀ p ∈ ps, failsAt parse fs p) (c : ConfState) :
    loadConfigAux parse fs ps c =
      (some .ErrNoConfigFound, c, ps.filterMap (attemptEv parse fs)) := by
  have h2 := loadConfigAux_append_fail parse fs h [] c
  simpa [loadConfigAux] using h2

lemma loadConfigAux_success (parse : Parse) (fs : FS) {ps : List String}
    {c : ConfState} (h : (loadConfigAux parse fs ps c).1 = none) :
    ∃ w s flds, fs w = some s ∧ parse s = some flds ∧
      (loadConfigAux parse fs ps c).2.1 = overlay flds c := by
  induction ps with
  | nil => simp [loadConfigAux] at h
  | cons p rest ih =>
    by_cases h0 : p = ""
    · rw [loadConfigAux_skip parse fs h0] at h ⊢
      exact ih h
    · cases hfs : fs p with
      | none =>
        rw [loadConfigAux_readFail parse fs h0 hfs] at h ⊢
        exact ih h
      | some s =>
        cases hps : parse s with
        | none =>
          rw [loadConfigAux_decodeFail parse fs h0 hfs hps] at h ⊢
          exact ih h
        | some flds =>
          rw [loadConfigAux_used parse fs h0 hfs hps]
          exact ⟨p, s, flds, hfs, hps, rfl⟩

lemma overlay_overlay (flds : List (String × Value)) (c : ConfState) :
    overlay flds (overlay flds c) = overlay flds c := by
  funext k
  unfold overlay
  cases h : flds.lookup k <;> simp [h]

lemma overlay_absent {flds : List (String × Value)} {k : String}
    (h : flds.lookup k = none) (c : ConfState) : overlay flds c k = c k := by
  simp [overlay, h]

lemma loadConfigAux_idem (parse : Parse) (fs : FS) (ps : List String) (c : ConfState) :
    loadConfigAux parse fs ps ((loadConfigAux parse fs ps c).2.1) =
      loadConfigAux parse fs ps c := by
  induction ps with
  | nil => rfl
  | cons p rest ih =>
    by_cases h0 : p = ""
    · simp only [loadConfigAux_skip parse fs h0]
      exact ih
    · cases hfs : fs p with
      | none =>
        simp only [loadConfigAux_readFail parse fs h0 hfs]
        rw [ih]
      | some s =>
        cases hps : parse s with
        | none =>
          simp only [loadConfigAux_decodeFail parse fs h0 hfs hps]
          rw [ih]
        | some flds =>
          simp only [loadConfigAux_used parse fs h0 hfs hps]
          rw [overlay_overlay]

lemma loadConfig_components (parse : Parse) (fs : FS) (m : Manager)
    {r : Option LoadError} {m' : Manager} {t : List Ev}
    (h : LoadConfig parse fs m = (r, m', t)) :
    (loadConfigAux parse fs m.confPaths m.Conf).1 = r ∧
      ({ m with Conf := (loadConfigAux parse fs m.confPaths m.Conf).2.1 } : Manager) = m' ∧
      (loadConfigAux parse fs m.confPaths m.Conf).2.2 = t := by
  simpa [LoadConfig, Prod.ext_iff] using h

lemma attemptEv_path {parse : Parse} {fs : FS} {p : String} {e : Ev}
    (h : attemptEv parse fs p = some e) : e.path = p := by
  by_cases h0 : p = ""
  · simp [attemptEv, h0] at h
  · cases hfs : fs p with
    | none =>
      simp [attemptEv, h0, hfs] at h
      simp [← h, Ev.path]
    | some s =>
      cases hps : parse s with
      | none =>
        simp [attemptEv, h0, hfs, hps] at h
        simp [← h, Ev.path]
      | some flds =>
        simp [attemptEv, h0, hfs, hps] at h
        simp [← h, Ev.path]

lemma filterMap_attemptEv_map_decodeFail (parse : Parse) (fs : FS) {pre : List String}
    (hpre : ∀ p ∈ pre, ∃ t, fs p = some t ∧ parse t = none)
    (hne : ∀ p ∈ pre, ¬ p = "") :
    pre.filterMap (attemptEv parse fs) = pre.map Ev.decodeFail := by
  induction pre with
  | nil => rfl
  | cons p pre ih =>
    obtain ⟨t, ht, hpt⟩ := hpre p (List.mem_cons_self _ _)
    have h0 := hne p (List.mem_cons_self _ _)
    have ih2 := ih (fun q hq => hpre q (List.mem_cons_of_mem _ hq))
      (fun q hq => hne q (List.mem_cons_of_mem _ hq))
    simp [attemptEv, h0, ht, hpt, ih2]

/-- Concrete objects for instantiating the theorems below: a parser for
which `"bad"` is the only malformed document and `"doc"` holds the single
field `k = v`; an empty filesystem; a filesystem holding a valid document
at `"w"` and a malformed one at `"m"`; an unset configuration object. -/
def parseX : Parse := fun s =>
  if s = "bad" then none else if s = "doc" then some [("k", "v")] else some []

/-- The empty filesystem: every read fails. -/
def fsEmpty : FS := fun _ => none

/-- A filesystem with a valid document at `"w"` and a malformed one at `"m"`. -/
def fsTwo : FS := fun p =>
  if p = "w" then some "doc" else if p = "m" then some "bad" else none

/-- The configuration object with every field unset. -/
def confEmpty : ConfState := fun _ => none

/-- The manager produced by `New parseX "doc" "" "a" "h" confEmpty false`. -/
def mNew : Manager :=
  ⟨confPathsOf "" "a" "h", "a", "doc", overlay [("k", "v")] confEmpty⟩

/-- A manager with the single candidate path `"w"`. -/
def mW : Manager := ⟨["w"], "w", "doc", confEmpty⟩

/-- `mW` after a successful load of the document at `"w"`. -/
def mW2 : Manager := ⟨["w"], "w", "doc", overlay [("k", "v")] confEmpty⟩

/-- C1: evaluation at the failing input. Constructing with an empty custom
directory (`confDir = ""`) makes the first candidate path the non-empty
string `"/app.toml"` (`confDir ++ "/" ++ fileName`), so the load operation
does not skip it: a read is attempted at `"/app.toml"` (the filesystem
root) before `"app.toml"` in the working directory, contradicting the
claim that the first candidate is skipped and the search effectively
begins at the working directory. -/
theorem loadConfig_empty_confDir_reads_root_path :
    confPathsOf "" "app.toml" "/home/user" =
      ["/app.toml", "app.toml", "/home/user/.config/app.toml",
       "/usr/local/etc/app.toml", "/etc/app.toml"] ∧
    (loadConfigAux (fun _ => some []) (fun _ => none)
        (confPathsOf "" "app.toml" "/home/user") (fun _ => none)).2.2 =
      [Ev.readFail "/app.toml", Ev.readFail "app.toml",
       Ev.readFail "/home/user/.config/app.toml",
       Ev.readFail "/usr/local/etc/app.toml", Ev.readFail "/etc/app.toml"] := by
  constructor <;> decide

/-- C2: the first candidate that both reads and decodes successfully is
used exclusively. If every candidate before `w` fails and `w` reads and
decodes, the search returns success with exactly `w`'s fields overlaid,
and the event trace shows that no candidate after `w` is ever read: every
event concerns a candidate of the failing prefix or is the use of `w`. -/
theorem loadConfig_first_success_wins
    (parse : Parse) (fs : FS) (pre post : List String) (w s : String)
    (flds : List (String × Value)) (c : ConfState)
    (hpre : ∀ p ∈ pre, failsAt parse fs p)
    (h0 : ¬ w = "") (hr : fs w = some s) (hd : parse s = some flds) :
    loadConfigAux parse fs (pre ++ w :: post) c =
      (none, overlay flds c, pre.filterMap (attemptEv parse fs) ++ [Ev.used w]) ∧
    ∀ e ∈ (loadConfigAux parse fs (pre ++ w :: post) c).2.2,
      e.path ∈ pre ∨ e = Ev.used w := by
  have h1 : loadConfigAux parse fs (pre ++ w :: post) c =
      (none, overlay flds c, pre.filterMap (attemptEv parse fs) ++ [Ev.used w]) := by
    rw [loadConfigAux_append_fail parse fs hpre, loadConfigAux_used parse fs h0 hr hd]
  refine ⟨h1, ?_⟩
  intro e he
  rw [h1] at he
  rcases List.mem_append.mp he with he | he
  · rcases List.mem_filterMap.mp he with ⟨p, hp, hpe⟩
    exact Or.inl (by rw [attemptEv_path hpe]; exact hp)
  · exact Or.inr (by simpa using he)

/-- C2 witness: with one failing candidate before `"w"` and one candidate
after it, the search uses `"w"` and reads nothing after it. -/
theorem loadConfig_first_success_wins_witness :
    (loadConfigAux parseX fsTwo (["x"] ++ "w" :: ["z"]) confEmpty =
      (none, overlay [("k", "v")] confEmpty,
        List.filterMap (attemptEv parseX fsTwo) ["x"] ++ [Ev.used "w"])) ∧
    ∀ e ∈ (loadConfigAux parseX fsTwo (["x"] ++ "w" :: ["z"]) confEmpty).2.2,
      e.path ∈ ["x"] ∨ e = Ev.used "w" :=
  loadConfig_first_success_wins parseX fsTwo ["x"] ["z"] "w" "doc" [("k", "v")]
    confEmpty
    (by intro p hp; simp at hp; subst hp; exact Or.inr (Or.inl rfl))
    (by decide) rfl rfl

/-- C3: after a successful construction the configuration object holds at
least the decoded defaults (every field present in the default document is
set from it, every other field keeps the caller's initial value), and
every subsequent successful load only overlays the fields present in the
loaded document: a field absent from the winning document retains the
value it had before that load. -/
theorem new_defaults_and_load_overlay_preserved
    (parse : Parse) (dflt confDir fileName home : String) (init : ConfState)
    (dflds : List (String × Value)) (fs : FS) (writeOk : Bool)
    (hp : parse dflt = some dflds) :
    (∃ m : Manager,
      (New parse dflt confDir fileName home init false fs writeOk).1 = NewResult.ok m ∧
      ∀ k, m.Conf k = match dflds.lookup k with | some v => some v | none => init k) ∧
    ∀ (fs2 : FS) (m1 m2 : Manager) (t : List Ev),
      LoadConfig parse fs2 m1 = (none, m2, t) →
      ∃ w s wflds, fs2 w = some s ∧ parse s = some wflds ∧
        ∀ k, wflds.lookup k = none → m2.Conf k = m1.Conf k := by
  constructor
  · refine ⟨⟨confPathsOf confDir fileName home, fileName, dflt, overlay dflds init⟩, ?_, ?_⟩
    · simp [New, decode, hp]
    · intro k
      rfl
  · intro fs2 m1 m2 t h
    obtain ⟨hr, hm, ht⟩ := loadConfig_components parse fs2 m1 h
    obtain ⟨w, s, wflds, hw, hws, hov⟩ := loadConfigAux_success parse fs2 hr
    refine ⟨w, s, wflds, hw, hws, ?_⟩
    intro k hk
    have hc : m2.Conf = (loadConfigAux parse fs2 m1.confPaths m1.Conf).2.1 := by
      rw [← hm]
    rw [hc, hov]
    exact overlay_absent hk _

/-- C3 witness: instantiation at a concrete parser, default document and
initial object. -/
theorem new_defaults_and_load_overlay_preserved_witness :
    (∃ m : Manager,
      (New parseX "doc" "" "a" "h" confEmpty false fsEmpty true).1 = NewResult.ok m ∧
      ∀ k, m.Conf k = match ([("k", "v")] : List (String × Value)).lookup k with
        | some v => some v | none => confEmpty k) ∧
    ∀ (fs2 : FS) (m1 m2 : Manager) (t : List Ev),
      LoadConfig parseX fs2 m1 = (none, m2, t) →
      ∃ w s wflds, fs2 w = some s ∧ parseX s = some wflds ∧
        ∀ k, wflds.lookup k = none → m2.Conf k = m1.Conf k :=
  new_defaults_and_load_overlay_preserved parseX "doc" "" "a" "h" confEmpty
    [("k", "v")] fsEmpty true rfl

/-- C4: when no candidate path holds a readable file, `LoadConfig` on a
freshly constructed manager returns `ErrNoConfigFound`, the manager (in
particular its configuration object, still the decoded defaults) is
unchanged, and the trace records only failed read attempts. -/
theorem loadConfig_no_readable_file_notFound_defaults_kept
    (parse : Parse) (dflt confDir fileName home : String) (init : ConfState)
    (dflds : List (String × Value)) (fs fs2 : FS) (writeOk : Bool) (m : Manager)
    (hp : parse dflt = some dflds)
    (hm : (New parse dflt confDir fileName home init false fs writeOk).1 = NewResult.ok m)
    (hfs : ∀ p ∈ m.confPaths, fs2 p = none) :
    LoadConfig parse fs2 m =
      (some LoadError.ErrNoConfigFound, m,
        m.confPaths.filterMap (attemptEv parse fs2)) ∧
    ∀ k, m.Conf k = match dflds.lookup k with | some v => some v | none => init k := by
  have hfail : ∀ p ∈ m.confPaths, failsAt parse fs2 p :=
    fun p hp2 => Or.inr (Or.inl (hfs p hp2))
  constructor
  · simp [LoadConfig, loadConfigAux_exhaust parse fs2 hfail]
  · have hm2 : m = ⟨confPathsOf confDir fileName home, fileName, dflt, overlay dflds init⟩ := by
      simp [New, decode, hp] at hm
      exact hm.symm
    intro k
    rw [hm2]
    rfl

/-- C4 witness: the freshly constructed manager, searched over the empty
filesystem. -/
theorem loadConfig_no_readable_file_notFound_defaults_kept_witness :
    (LoadConfig parseX fsEmpty mNew =
      (some LoadError.ErrNoConfigFound, mNew,
        mNew.confPaths.filterMap (attemptEv parseX fsEmpty))) ∧
    ∀ k, mNew.Conf k = match ([("k", "v")] : List (String × Value)).lookup k with
      | some v => some v | none => confEmpty k :=
  loadConfig_no_readable_file_notFound_defaults_kept parseX "doc" "" "a" "h"
    confEmpty [("k", "v")] fsEmpty fsEmpty true mNew rfl rfl (fun _ _ => rfl)

/-- C5: with autoload enabled and every candidate failing, `New` writes
the default document text byte-for-byte to `fileName` with permission
bits `0644` and exits with status `0` when the write succeeds, and exits
with a non-zero status (writing nothing) when the write fails. -/
theorem new_autoload_notFound_writes_default_and_exits
    (parse : Parse) (dflt confDir fileName home : String) (init : ConfState)
    (dflds : List (String × Value)) (fs : FS)
    (hp : parse dflt = some dflds)
    (hfs : ∀ p ∈ confPathsOf confDir fileName home, failsAt parse fs p) :
    (New parse dflt confDir fileName home init true fs true).1 =
      NewResult.exited 0 (some (fileName, dflt, 0o644)) ∧
    (New parse dflt confDir fileName home init true fs false).1 =
      NewResult.exited 1 none := by
  constructor <;>
    simp [New, decode, hp, LoadConfig, loadConfigAux_exhaust parse fs hfs]

/-- C5 witness: autoload over the empty filesystem, for both outcomes of
the write. -/
theorem new_autoload_notFound_writes_default_and_exits_witness :
    ((New parseX "doc" "d" "a" "h" confEmpty true fsEmpty true).1 =
      NewResult.exited 0 (some ("a", "doc", 0o644))) ∧
    (New parseX "doc" "d" "a" "h" confEmpty true fsEmpty false).1 =
      NewResult.exited 1 none :=
  new_autoload_notFound_writes_default_and_exits parseX "doc" "d" "a" "h"
    confEmpty [("k", "v")] fsEmpty rfl (fun _ _ => Or.inr (Or.inl rfl))

/-- C6: if no candidate path both reads and decodes successfully, the
search is exhausted and `LoadConfig` returns the zero-data marker error
`ErrNoConfigFound`. -/
theorem loadConfig_exhausted_returns_errNoConfigFound
    (parse : Parse) (fs : FS) (m : Manager)
    (h : ∀ p ∈ m.confPaths, failsAt parse fs p) :
    (LoadConfig parse fs m).1 = some LoadError.ErrNoConfigFound := by
  simp [LoadConfig, loadConfigAux_exhaust parse fs h]

/-- C6 witness: exhaustion over the empty filesystem. -/
theorem loadConfig_exhausted_returns_errNoConfigFound_witness :
    (LoadConfig parseX fsEmpty mNew).1 = some LoadError.ErrNoConfigFound :=
  loadConfig_exhausted_returns_errNoConfigFound parseX fsEmpty mNew
    (fun _ _ => Or.inr (Or.inl rfl))

/-- C7: a candidate that reads but fails to decode produces a decode
warning event and the search continues; with malformed files at every
higher-priority candidate and a valid file at `w`, the load succeeds
using `w`, and the trace shows one warning per malformed candidate
followed by the use of `w`. -/
theorem loadConfig_skips_malformed_uses_lower_priority
    (parse : Parse) (fs : FS) (pre post : List String) (w s : String)
    (flds : List (String × Value)) (c : ConfState)
    (hpre : ∀ p ∈ pre, ∃ t, fs p = some t ∧ parse t = none)
    (hne : ∀ p ∈ pre, ¬ p = "")
    (h0 : ¬ w = "") (hr : fs w = some s) (hd : parse s = some flds) :
    loadConfigAux parse fs (pre ++ w :: post) c =
      (none, overlay flds c, pre.map Ev.decodeFail ++ [Ev.used w]) := by
  have hfail : ∀ p ∈ pre, failsAt parse fs p := by
    intro p hp2
    obtain ⟨t, ht, hpt⟩ := hpre p hp2
    exact Or.inr (Or.inr ⟨t, ht, hpt⟩)
  rw [loadConfigAux_append_fail parse fs hfail,
    loadConfigAux_used parse fs h0 hr hd,
    filterMap_attemptEv_map_decodeFail parse fs hpre hne]

/-- C7 witness: a malformed file at the higher-priority path `"m"` and a
valid file at the lower-priority path `"w"`. -/
theorem loadConfig_skips_malformed_uses_lower_priority_witness :
    loadConfigAux parseX fsTwo (["m"] ++ "w" :: ["z"]) confEmpty =
      (none, overlay [("k", "v")] confEmpty,
        List.map Ev.decodeFail ["m"] ++ [Ev.used "w"]) :=
  loadConfig_skips_malformed_uses_lower_priority parseX fsTwo ["m"] ["z"] "w"
    "doc" [("k", "v")] confEmpty
    (by intro p hp; simp at hp; subst hp; exact ⟨"bad", rfl, rfl⟩)
    (by intro p hp; simp at hp; subst hp; decide)
    (by decide) rfl rfl

/-- C8: when the default document itself fails to decode, `New` fails
immediately with the default-decode error, returns no manager, and
performs no read of any candidate file (the trace is empty), regardless
of the autoload flag, the filesystem and the write outcome. -/
theorem new_malformed_default_fails_before_search
    (parse : Parse) (dflt confDir fileName home : String) (init : ConfState)
    (autoload : Bool) (fs : FS) (writeOk : Bool)
    (hp : parse dflt = none) :
    New parse dflt confDir fileName home init autoload fs writeOk =
      (NewResult.defaultDecodeError, []) := by
  simp [New, decode, hp]

/-- C8 witness: the malformed default document `"bad"`, with autoload
enabled. -/
theorem new_malformed_default_fails_before_search_witness :
    New parseX "bad" "d" "a" "h" confEmpty true fsEmpty true =
      (NewResult.defaultDecodeError, []) :=
  new_malformed_default_fails_before_search parseX "bad" "d" "a" "h" confEmpty
    true fsEmpty true rfl

/-- C9: `LoadConfig` is idempotent over a fixed filesystem: if one call
returns `(r, m2, t)`, a second call on the resulting manager returns the
same result, leaves the configuration object in the same state, and
re-runs the same full candidate search (same trace `t` from the top of
the list). -/
theorem loadConfig_idempotent
    (parse : Parse) (fs : FS) (m m2 : Manager) (r : Option LoadError) (t : List Ev)
    (h : LoadConfig parse fs m = (r, m2, t)) :
    LoadConfig parse fs m2 = (r, m2, t) := by
  obtain ⟨hr, hm, ht⟩ := loadConfig_components parse fs m h
  subst hr ht
  subst hm
  simp only [LoadConfig]
  rw [loadConfigAux_idem parse fs m.confPaths m.Conf]

/-- C9 witness: a manager whose single candidate loads successfully; the
second call returns the same result, manager and trace. -/
theorem loadConfig_idempotent_witness :
    LoadConfig parseX fsTwo mW2 = (none, mW2, [Ev.used "w"]) :=
  loadConfig_idempotent parseX fsTwo mW mW2 none [Ev.used "w"] rfl

/-- C10: `LoadConfig` never modifies the manager's own state: the
candidate path list, the file name and the default-document text are
unchanged after the call (only the `Conf` field may change), and a
candidate whose read fails causes no mutation at all: the configuration
object and the result are exactly those of the search over the remaining
candidates. -/
theorem loadConfig_frame_manager_unchanged
    (parse : Parse) (fs : FS) (m : Manager) (cd : String) (rest : List String)
    (c : ConfState) (h : fs cd = none) :
    (LoadConfig parse fs m).2.1.confPaths = m.confPaths ∧
    (LoadConfig parse fs m).2.1.fileName = m.fileName ∧
    (LoadConfig parse fs m).2.1.defaultConfig = m.defaultConfig ∧
    (loadConfigAux parse fs (cd :: rest) c).2.1 =
      (loadConfigAux parse fs rest c).2.1 ∧
    (loadConfigAux parse fs (cd :: rest) c).1 =
      (loadConfigAux parse fs rest c).1 := by
  refine ⟨rfl, rfl, rfl, ?_, ?_⟩ <;>
  · by_cases h0 : cd = ""
    · rw [loadConfigAux_skip parse fs h0]
    · rw [loadConfigAux_readFail parse fs h0 h]

/-- C10 witness: a failing read at `"x"` before the single candidate of
`mW`. -/
theorem loadConfig_frame_manager_unchanged_witness :
    ((LoadConfig parseX fsEmpty mW).2.1.confPaths = mW.confPaths ∧
    (LoadConfig parseX fsEmpty mW).2.1.fileName = mW.fileName ∧
    (LoadConfig parseX fsEmpty mW).2.1.defaultConfig = mW.defaultConfig ∧
    (loadConfigAux parseX fsEmpty ("x" :: ["w"]) confEmpty).2.1 =
      (loadConfigAux parseX fsEmpty ["w"] confEmpty).2.1 ∧
    (loadConfigAux parseX fsEmpty ("x" :: ["w"]) confEmpty).1 =
      (loadConfigAux parseX fsEmpty ["w"] confEmpty).1) :=
  loadConfig_frame_manager_unchanged parseX fsEmpty mW "x" ["w"] confEmpty rfl

end Config
